/-
Verification of the fireschema ts-client runtime core:
query builder (constraint accumulation and compilation), update builder
(field-operation accumulation and commit), and collection resolver
(schema-driven defaults, document reads/writes, sub-collection resolution).

The TypeScript sources are shallowly embedded: JS values become an
inductive `JsValue`, JS objects become insertion-ordered association
lists with JS spread/override semantics, store side effects become
explicit traces of `StoreCall` values, and the prototype-copy chaining
of the builders becomes an explicit heap (list of builder states) with
fresh allocation.
-/
import Mathlib

/-- A JavaScript value as the runtime manipulates it: primitive literals,
arrays, plain objects, and the opaque Firestore sentinel values produced by
`serverTimestamp()`, `increment()`, `arrayUnion()`, `arrayRemove()` and
`deleteField()`. -/
inductive JsValue where
  | str : String → JsValue
  | num : Int → JsValue
  | boolean : Bool → JsValue
  | nullV : JsValue
  | arr : List JsValue → JsValue
  | obj : List (String × JsValue) → JsValue
  | serverTimestampSentinel : JsValue
  | incrementSentinel : Int → JsValue
  | arrayUnionSentinel : List JsValue → JsValue
  | arrayRemoveSentinel : List JsValue → JsValue
  | deleteFieldSentinel : JsValue

/-- A JS plain object: insertion-ordered list of key/value pairs.  Keys of
a real JS object are pairwise distinct; on such lists the recursive
first-occurrence operations below coincide with JS property semantics. -/
abbrev JsObj := List (String × JsValue)

/-- Property read `o[k]`: the value at the first occurrence of key `k`,
`none` when the key is absent (JS `undefined`). -/
def objGet : JsObj → String → Option JsValue
  | [], _ => none
  | p :: t, k => if p.1 == k then some p.2 else objGet t k

/-- The JS object-spread override `{ ...o, [k]: v }`: if `k` is already a
key its value is replaced in place (JS keeps the original key position),
otherwise the pair is appended at the end. -/
def objSet : JsObj → String → JsValue → JsObj
  | [], k, v => [(k, v)]
  | p :: t, k, v => if p.1 == k then (k, v) :: t else p :: objSet t k v

theorem objGet_objSet_self (o : JsObj) (k : String) (v : JsValue) :
    objGet (objSet o k v) k = some v := by
  induction o with
  | nil => simp [objGet, objSet]
  | cons p t ih =>
    by_cases hp : p.1 == k
    · simp [objGet, objSet, hp]
    · simp [objGet, objSet, hp, ih]

theorem objGet_objSet_other (o : JsObj) (k k' : String) (v : JsValue)
    (hne : k' ≠ k) : objGet (objSet o k v) k' = objGet o k' := by
  induction o with
  | nil =>
    have : (k == k') = false := by simpa using (Ne.symm hne)
    simp [objGet, objSet, this]
  | cons p t ih =>
    by_cases hp : p.1 == k
    · have hpk : p.1 = k := by simpa using hp
      have h1 : (k == k') = false := by simpa using (Ne.symm hne)
      have h2 : (p.1 == k') = false := by
        simpa [hpk] using (Ne.symm hne)
      simp [objGet, objSet, hp, h1, h2]
    · by_cases hq : p.1 == k'
      · simp [objGet, objSet, hp, hq]
      · simp [objGet, objSet, hp, hq, ih]

theorem objSet_keys (o : JsObj) (k : String) (v : JsValue) :
    (objSet o k v).map Prod.fst = o.map Prod.fst ∨
    (objSet o k v).map Prod.fst = o.map Prod.fst ++ [k] := by
  induction o with
  | nil => right; simp [objSet]
  | cons p t ih =>
    by_cases hp : p.1 == k
    · left
      have hpk : p.1 = k := by simpa using hp
      simp [objSet, hp, hpk]
    · rcases ih with h | h
      · left; simp [objSet, hp, h]
      · right; simp [objSet, hp, h]

/-! ## Model of the firebase/firestore SDK collaborator -/

/-- Firestore document and collection references are identified by their
path segments; the SDK `doc(ref, id)` and `collection(parentOrDb, id)`
functions extend the path. -/
abbrev RefPath := List String

namespace FirebaseFirestore

/-- Source `serverTimestamp()` sentinel factory. -/
def serverTimestamp : JsValue := JsValue.serverTimestampSentinel

/-- Source `increment(value)` sentinel factory. -/
def increment (value : Int) : JsValue := JsValue.incrementSentinel value

/-- Source `arrayUnion(...values)` sentinel factory. -/
def arrayUnion (values : List JsValue) : JsValue := JsValue.arrayUnionSentinel values

/-- Source `arrayRemove(...values)` sentinel factory. -/
def arrayRemove (values : List JsValue) : JsValue := JsValue.arrayRemoveSentinel values

/-- Source `deleteField()` sentinel factory. -/
def deleteField : JsValue := JsValue.deleteFieldSentinel

end FirebaseFirestore

/-- The `SetOptions` argument of the SDK `setDoc`: an object that may carry
a `merge` boolean and/or a `mergeFields` array.  `none` models an absent
key. -/
structure SetOptionsModel where
  merge : Option Bool
  mergeFields : Option (List String)
deriving DecidableEq

/-- The empty options object `{}` (what the code passes as `options || {}`
when the caller supplied none). -/
def SetOptionsModel.empty : SetOptionsModel := ⟨none, none⟩

/-- One network-crossing call issued to the store.  Reference construction
(`doc`, `collection`) performs no I/O and therefore has no constructor
here. -/
inductive StoreCall where
  | setDocCall (docPath : RefPath) (data : JsObj) (options : SetOptionsModel)
  | updateDocCall (docPath : RefPath) (data : JsObj)
  | addDocCall (collectionPath : RefPath) (data : JsObj)
  | deleteDocCall (docPath : RefPath)
  | getDocCall (docPath : RefPath)

/-! ## Update builder (src/baseUpdateBuilder.ts) -/

/-- State of a `ClientBaseUpdateBuilder` object: the document reference and
the `_updateData` accumulator (a JS object mapping field paths to values). -/
structure ClientBaseUpdateBuilderState where
  docRef : RefPath
  updateData : JsObj

/-- The heap of update-builder objects: each builder is a cell, its address
is its index; `Object.create` allocates a fresh cell at the end. -/
abbrev UpdateHeap := List ClientBaseUpdateBuilderState

namespace ClientBaseUpdateBuilder

/-- Source `_set(fieldPath, value)`: makes a fresh object via
`Object.create`/`Object.assign`, overrides its `_updateData` with
`{ ...this._updateData, [fieldPath]: value }`, and returns the fresh
object.  Heap embedding: returns the updated heap and the address of the
new builder (allocation at the end of the heap). -/
def setOp (h : UpdateHeap) (a : Nat) (fieldPath : String) (value : JsValue) :
    UpdateHeap × Nat :=
  match h[a]? with
  | some st =>
      (h ++ [{ st with updateData := objSet st.updateData fieldPath value }], h.length)
  | none => (h, a)

/-- Source `_getIncrementFieldValue(value)`. -/
def getIncrementFieldValue (value : Int) : JsValue := FirebaseFirestore.increment value

/-- Source `_getArrayUnionFieldValue(values)`. -/
def getArrayUnionFieldValue (values : List JsValue) : JsValue :=
  FirebaseFirestore.arrayUnion values

/-- Source `_getArrayRemoveFieldValue(values)`. -/
def getArrayRemoveFieldValue (values : List JsValue) : JsValue :=
  FirebaseFirestore.arrayRemove values

/-- Source `_getServerTimestampFieldValue()`. -/
def getServerTimestampFieldValue : JsValue := FirebaseFirestore.serverTimestamp

/-- Source `_getDeleteFieldValue()`. -/
def getDeleteFieldValue : JsValue := FirebaseFirestore.deleteField

/-- Source `_increment(fieldPath, value)`. -/
def incrementOp (h : UpdateHeap) (a : Nat) (fieldPath : String) (value : Int) :
    UpdateHeap × Nat :=
  setOp h a fieldPath (getIncrementFieldValue value)

/-- Source `_arrayUnion(fieldPath, values)`. -/
def arrayUnionOp (h : UpdateHeap) (a : Nat) (fieldPath : String)
    (values : List JsValue) : UpdateHeap × Nat :=
  setOp h a fieldPath (getArrayUnionFieldValue values)

/-- Source `_arrayRemove(fieldPath, values)`. -/
def arrayRemoveOp (h : UpdateHeap) (a : Nat) (fieldPath : String)
    (values : List JsValue) : UpdateHeap × Nat :=
  setOp h a fieldPath (getArrayRemoveFieldValue values)

/-- Source `_serverTimestamp(fieldPath)`. -/
def serverTimestampOp (h : UpdateHeap) (a : Nat) (fieldPath : String) :
    UpdateHeap × Nat :=
  setOp h a fieldPath getServerTimestampFieldValue

/-- Source `_deleteField(fieldPath)`. -/
def deleteFieldOp (h : UpdateHeap) (a : Nat) (fieldPath : String) :
    UpdateHeap × Nat :=
  setOp h a fieldPath getDeleteFieldValue

/-- Source `commit()`: when `Object.keys(this._updateData).length === 0` it only
emits a console warning (not a store call) and resolves; otherwise it
issues exactly one `updateDoc` with the accumulated data.  The result is
the trace of store calls the commit performs. -/
def commit (st : ClientBaseUpdateBuilderState) : List StoreCall :=
  if st.updateData.length = 0 then []
  else [StoreCall.updateDocCall st.docRef st.updateData]

end ClientBaseUpdateBuilder

/-! ## Query builder (the query-builder source file) -/

/-- The `WhereFilterOp` enumeration of the SDK. -/
inductive ClientWhereFilterOp where
  | ltOp | leOp | eqOp | neOp | gtOp | geOp
  | arrayContains | arrayContainsAny | inOp | notInOp
deriving DecidableEq

/-- The `OrderByDirection` enumeration of the SDK. -/
inductive ClientOrderByDirection where
  | asc | desc
deriving DecidableEq

/-- Internal constraint definition structure (`QueryConstraintDefinition`):
the tagged variants `WhereConstraint`, `OrderByConstraint`,
`LimitConstraint` (tag `limit` or `limitToLast`) and `CursorConstraint`
(tag `startAt`, `startAfter`, `endAt` or `endBefore`). -/
inductive QueryConstraintDefinition where
  | whereDef (fieldPath : String) (opStr : ClientWhereFilterOp) (value : JsValue)
  | orderByDef (fieldPath : String) (directionStr : ClientOrderByDirection)
  | limitDef (limitCount : Int)
  | limitToLastDef (limitCount : Int)
  | startAtDef (snapshotOrFieldValue : JsValue) (fieldValues : List JsValue)
  | startAfterDef (snapshotOrFieldValue : JsValue) (fieldValues : List JsValue)
  | endAtDef (snapshotOrFieldValue : JsValue) (fieldValues : List JsValue)
  | endBeforeDef (snapshotOrFieldValue : JsValue) (fieldValues : List JsValue)

/-- A native `QueryConstraint` as returned by the SDK factories `where`,
`orderBy`, `limit`, `limitToLast`, `startAt`, `startAfter`, `endAt`,
`endBefore`; opaque to the builder, so modelled as the factory applied to
its arguments. -/
inductive NativeQueryConstraint where
  | whereNC (fieldPath : String) (opStr : ClientWhereFilterOp) (value : JsValue)
  | orderByNC (fieldPath : String) (directionStr : ClientOrderByDirection)
  | limitNC (limitCount : Int)
  | limitToLastNC (limitCount : Int)
  | startAtNC (snapshotOrFieldValue : JsValue) (fieldValues : List JsValue)
  | startAfterNC (snapshotOrFieldValue : JsValue) (fieldValues : List JsValue)
  | endAtNC (snapshotOrFieldValue : JsValue) (fieldValues : List JsValue)
  | endBeforeNC (snapshotOrFieldValue : JsValue) (fieldValues : List JsValue)

/-- The SDK `query(collectionRef, ...constraints)` result: the base
collection reference together with the ordered native constraint list. -/
structure NativeQuery where
  collectionRef : RefPath
  constraints : List NativeQueryConstraint

/-- State of a `ClientBaseQueryBuilder` object: the Firestore handle, the
collection reference, and the accumulated `constraintDefinitions`. -/
structure ClientBaseQueryBuilderState where
  firestore : Nat
  collectionRef : RefPath
  constraintDefinitions : List QueryConstraintDefinition

/-- The heap of query-builder objects, indexed by address, with fresh
allocation at the end (`Object.create` + `Object.assign`). -/
abbrev QueryHeap := List ClientBaseQueryBuilderState

namespace ClientBaseQueryBuilder

/-- Source `addConstraintDefinition(definition)`: creates a fresh builder object,
copies this builder's fields into it, replaces its `constraintDefinitions`
with `[...this.constraintDefinitions, definition]`, and returns the fresh
object.  Heap embedding as for the update builder. -/
def addConstraintDefinition (h : QueryHeap) (a : Nat)
    (definition : QueryConstraintDefinition) : QueryHeap × Nat :=
  match h[a]? with
  | some st =>
      (h ++ [{ st with
                constraintDefinitions := st.constraintDefinitions ++ [definition] }],
       h.length)
  | none => (h, a)

/-- Source `_where(fieldPath, opStr, value)`. -/
def whereOp (h : QueryHeap) (a : Nat) (fieldPath : String)
    (opStr : ClientWhereFilterOp) (value : JsValue) : QueryHeap × Nat :=
  addConstraintDefinition h a (.whereDef fieldPath opStr value)

/-- Source `orderBy(fieldPath, directionStr)` (the source defaults `directionStr`
to ascending; the default is made explicit here). -/
def orderBy (h : QueryHeap) (a : Nat) (fieldPath : String)
    (directionStr : ClientOrderByDirection) : QueryHeap × Nat :=
  addConstraintDefinition h a (.orderByDef fieldPath directionStr)

/-- Source `limit(limitCount)`. -/
def limit (h : QueryHeap) (a : Nat) (limitCount : Int) : QueryHeap × Nat :=
  addConstraintDefinition h a (.limitDef limitCount)

/-- Source `limitToLast(limitCount)`. -/
def limitToLast (h : QueryHeap) (a : Nat) (limitCount : Int) : QueryHeap × Nat :=
  addConstraintDefinition h a (.limitToLastDef limitCount)

/-- Source `startAt(snapshotOrFieldValue, ...fieldValues)`. -/
def startAt (h : QueryHeap) (a : Nat) (snapshotOrFieldValue : JsValue)
    (fieldValues : List JsValue) : QueryHeap × Nat :=
  addConstraintDefinition h a (.startAtDef snapshotOrFieldValue fieldValues)

/-- Source `startAfter(snapshotOrFieldValue, ...fieldValues)`. -/
def startAfter (h : QueryHeap) (a : Nat) (snapshotOrFieldValue : JsValue)
    (fieldValues : List JsValue) : QueryHeap × Nat :=
  addConstraintDefinition h a (.startAfterDef snapshotOrFieldValue fieldValues)

/-- Source `endBefore(snapshotOrFieldValue, ...fieldValues)`. -/
def endBefore (h : QueryHeap) (a : Nat) (snapshotOrFieldValue : JsValue)
    (fieldValues : List JsValue) : QueryHeap × Nat :=
  addConstraintDefinition h a (.endBeforeDef snapshotOrFieldValue fieldValues)

/-- Source `endAt(snapshotOrFieldValue, ...fieldValues)`. -/
def endAt (h : QueryHeap) (a : Nat) (snapshotOrFieldValue : JsValue)
    (fieldValues : List JsValue) : QueryHeap × Nat :=
  addConstraintDefinition h a (.endAtDef snapshotOrFieldValue fieldValues)

/-- The per-variant translation performed inside `buildQuery`'s
`constraintDefinitions.map(def => switch ...)`: each definition is handed
to the corresponding SDK constraint factory.  The variant set is closed,
so the `default: throw` branch of the source is unreachable here. -/
def translateConstraintDefinition :
    QueryConstraintDefinition → NativeQueryConstraint
  | .whereDef fieldPath opStr value => .whereNC fieldPath opStr value
  | .orderByDef fieldPath directionStr => .orderByNC fieldPath directionStr
  | .limitDef limitCount => .limitNC limitCount
  | .limitToLastDef limitCount => .limitToLastNC limitCount
  | .startAtDef s fv => .startAtNC s fv
  | .startAfterDef s fv => .startAfterNC s fv
  | .endAtDef s fv => .endAtNC s fv
  | .endBeforeDef s fv => .endBeforeNC s fv

/-- Source `buildQuery()`: maps the accumulated definitions, in order, to native
constraints and combines them with the collection reference via the
top-level `query` function. -/
def buildQuery (st : ClientBaseQueryBuilderState) : NativeQuery :=
  { collectionRef := st.collectionRef,
    constraints := st.constraintDefinitions.map translateConstraintDefinition }

end ClientBaseQueryBuilder

/-! ## Collection resolver (the collection-reference source file) -/

/-- Source `FieldSchema`: an optional default-value directive.  The directive is
either the literal string `serverTimestamp` (requesting the sentinel) or
any literal value. -/
structure FieldSchema where
  defaultValue : Option JsValue

/-- Source `CollectionSchema`: field schemas plus optionally declared
sub-collections.  A sub-collection entry carries an optional nested schema
and its `collectionClass` (a constructor reference, modelled as an opaque
tag; `none` models a missing class in the entry). -/
inductive CollectionSchema where
  | mk (fields : List (String × FieldSchema))
       (subCollections : Option (List (String × (Option CollectionSchema × Option Nat))))

/-- The `fields` record of a `CollectionSchema`. -/
def CollectionSchema.fields : CollectionSchema → List (String × FieldSchema)
  | .mk f _ => f

/-- The `subCollections` record of a `CollectionSchema`. -/
def CollectionSchema.subCollections :
    CollectionSchema → Option (List (String × (Option CollectionSchema × Option Nat)))
  | .mk _ s => s

/-- JS record lookup by key (first occurrence; `none` for an absent key). -/
def recordGet {α : Type} (l : List (String × α)) (k : String) : Option α :=
  (l.find? (fun p => p.1 == k)).map (·.2)

/-- The `id` property of a Firestore reference: its last path segment. -/
def refSegmentId (r : RefPath) : String := r.getLastD ""

/-- State of a `ClientBaseCollectionRef` object: the Firestore handle
(opaque tag), the collection id, the optional schema, and the native
collection reference `ref`. -/
structure ClientBaseCollectionRefState where
  firestore : Nat
  collectionId : String
  schema : Option CollectionSchema
  ref : RefPath

/-- The `ClientBaseCollectionRef` constructor: given an optional parent
document reference, `ref` is `collection(parentRef, collectionId)`;
otherwise `collection(firestore, collectionId)`. -/
def mkClientBaseCollectionRef (firestore : Nat) (collectionId : String)
    (schema : Option CollectionSchema) (parentRef : Option RefPath) :
    ClientBaseCollectionRefState :=
  { firestore := firestore, collectionId := collectionId, schema := schema,
    ref := match parentRef with
      | some p => p ++ [collectionId]
      | none => [collectionId] }

namespace ClientBaseCollectionRef

/-- Source `doc(id)`: the per-document reference, pure path construction, no I/O. -/
def doc (self : ClientBaseCollectionRefState) (id : String) : RefPath :=
  self.ref ++ [id]

/-- Does this default directive name the server-timestamp default, i.e. is
it exactly the string `serverTimestamp`? -/
def isServerTimestampDirective : Option JsValue → Bool
  | some (JsValue.str s) => s == "serverTimestamp"
  | _ => false

/-- One iteration of the `for (const fieldName in this.schema.fields)` loop
of `applyDefaults`: inject the server-timestamp sentinel when the directive
is the string `serverTimestamp` and the field is absent, else inject the
literal default when one is declared and the field is absent, else leave
the accumulator alone.  The second component records the fields for which
the `serverTimestamp()` factory was invoked. -/
def applyDefaultsStep (acc : JsObj × List String) (entry : String × FieldSchema) :
    JsObj × List String :=
  if isServerTimestampDirective entry.2.defaultValue
      && (objGet acc.1 entry.1).isNone then
    (objSet acc.1 entry.1 FirebaseFirestore.serverTimestamp, acc.2 ++ [entry.1])
  else
    match entry.2.defaultValue with
    | some dv =>
        if !isServerTimestampDirective (some dv) && (objGet acc.1 entry.1).isNone then
          (objSet acc.1 entry.1 dv, acc.2)
        else acc
    | none => acc

/-- The whole `applyDefaults` loop, also yielding the list of fields for
which the server-timestamp sentinel factory was invoked.  Without a schema
the data passes through untouched. -/
def applyDefaultsRun (schema : Option CollectionSchema) (data : JsObj) :
    JsObj × List String :=
  match schema with
  | some s => s.fields.foldl applyDefaultsStep (data, [])
  | none => (data, [])

/-- Source `applyDefaults(data)`: the prepared payload. -/
def applyDefaults (self : ClientBaseCollectionRefState) (data : JsObj) : JsObj :=
  (applyDefaultsRun self.schema data).1

/-- The fields of `data` for which `applyDefaults` invokes the
`serverTimestamp()` sentinel factory. -/
def applyDefaultsTimestampCalls (self : ClientBaseCollectionRefState)
    (data : JsObj) : List String :=
  (applyDefaultsRun self.schema data).2

/-- Source `add(data)`: applies defaults and issues one `addDoc`; result is the
trace of store calls. -/
def add (self : ClientBaseCollectionRefState) (data : JsObj) : List StoreCall :=
  [StoreCall.addDocCall self.ref (applyDefaults self data)]

/-- The `isMerge` test of `set`: true exactly when options are present and
either hold the `merge` key with value `true`, or hold the `mergeFields`
key. -/
def mergeRequested (options : Option SetOptionsModel) : Bool :=
  match options with
  | none => false
  | some o => (o.merge == some true) || o.mergeFields.isSome

/-- Source `set(id, data, options?)`: applies defaults exactly when the operation
is not a merge, then issues one `setDoc` with `options || {}`.  Result is
the trace of store calls. -/
def set (self : ClientBaseCollectionRefState) (id : String) (data : JsObj)
    (options : Option SetOptionsModel) : List StoreCall :=
  let docRef := doc self id
  let isMerge := mergeRequested options
  let dataToWrite := if !isMerge then applyDefaults self data else data
  [StoreCall.setDocCall docRef dataToWrite (options.getD SetOptionsModel.empty)]

/-- Source `delete(id)`: one `deleteDoc` call. -/
def delete (self : ClientBaseCollectionRefState) (id : String) : List StoreCall :=
  [StoreCall.deleteDocCall (doc self id)]

end ClientBaseCollectionRef

/-- The SDK `DocumentSnapshot`: the `exists()` flag and the `data()`
payload (`none` modelling JS `undefined`). -/
structure DocumentSnapshotModel where
  snapshotExists : Bool
  snapData : Option JsObj

namespace ClientBaseCollectionRef

/-- Source `get(id)`: one `getDoc` read against the store (modelled as a function
from document paths to snapshots); the result is
`snapshot.exists() ? snapshot.data() : undefined`, inside `Except` to make
explicit that no error is raised locally. -/
def get (store : RefPath → DocumentSnapshotModel)
    (self : ClientBaseCollectionRefState) (id : String) :
    Except String (Option JsObj) × List StoreCall :=
  let docRef := doc self id
  let snapshot := store docRef
  (Except.ok (if snapshot.snapshotExists then snapshot.snapData else none),
   [StoreCall.getDocCall docRef])

end ClientBaseCollectionRef

/-- A single-quote character as a string (used in the error messages of
`subCollection`). -/
def squote : String := String.singleton (Char.ofNat 39)

/-- The error message thrown by `subCollection` when the schema is absent,
has no `subCollections`, or lacks the requested key. -/
def subCollectionNotFoundMsg (subCollectionId collectionRefId : String) : String :=
  "Sub-collection " ++ squote ++ subCollectionId ++ squote
    ++ " not found in schema for collection " ++ squote ++ collectionRefId ++ squote

/-- The error message thrown by `subCollection` when the declared entry has
no `collectionClass`. -/
def collectionClassMissingMsg (subCollectionId collectionRefId : String) : String :=
  "Collection class definition missing for sub-collection " ++ squote
    ++ subCollectionId ++ squote ++ " in schema for collection " ++ squote
    ++ collectionRefId ++ squote

/-- The object produced by `new ResolvedSubCollectionClass(...)`: the class
that was instantiated plus the state the base constructor builds from the
constructor arguments. -/
structure ResolverInstance where
  collectionClass : Nat
  state : ClientBaseCollectionRefState

namespace ClientBaseCollectionRef

/-- Source `subCollection(parentId, subCollectionId, subSchema?)`: resolves the
name against the schema's declared sub-collections, throws a configuration
error (synchronously — the trace of store calls is empty) when the schema
or entry or its class is missing, and otherwise instantiates the declared
class with `(firestore, subCollectionId, declared schema, parent doc ref)`.
The `subSchema` parameter is accepted but unused, exactly as in the
source. -/
def subCollection (self : ClientBaseCollectionRefState)
    (parentId subCollectionId : String) (subSchema : Option CollectionSchema) :
    Except String ResolverInstance × List StoreCall :=
  match self.schema with
  | none =>
      (.error (subCollectionNotFoundMsg subCollectionId (refSegmentId self.ref)), [])
  | some s =>
    match s.subCollections with
    | none =>
        (.error (subCollectionNotFoundMsg subCollectionId (refSegmentId self.ref)), [])
    | some subs =>
        match recordGet subs subCollectionId with
        | none =>
            (.error (subCollectionNotFoundMsg subCollectionId (refSegmentId self.ref)), [])
        | some subCollectionDef =>
            match subCollectionDef.2 with
            | none =>
                (.error (collectionClassMissingMsg subCollectionId
                          (refSegmentId self.ref)), [])
            | some cls =>
                let parentDocRef := doc self parentId
                (.ok ⟨cls, mkClientBaseCollectionRef self.firestore subCollectionId
                            subCollectionDef.1 (some parentDocRef)⟩, [])

end ClientBaseCollectionRef

/-! ## Helper lemmas about the builder heaps -/

theorem ClientBaseUpdateBuilder.setOp_frame (h : UpdateHeap) (a : Nat)
    (fieldPath : String) (value : JsValue) (ha : a < h.length) :
    (ClientBaseUpdateBuilder.setOp h a fieldPath value).2 ≠ a ∧
    ((ClientBaseUpdateBuilder.setOp h a fieldPath value).1)[a]? = h[a]? := by
  have hsome : h[a]? = some h[a] := List.getElem?_eq_getElem ha
  have heq : ClientBaseUpdateBuilder.setOp h a fieldPath value =
      (h ++ [{ h[a] with updateData := objSet (h[a]).updateData fieldPath value }],
       h.length) := by
    unfold ClientBaseUpdateBuilder.setOp
    rw [hsome]
  rw [heq]
  refine ⟨by omega, ?_⟩
  simpa [hsome] using List.getElem?_append_left ha

theorem ClientBaseUpdateBuilder.setOp_result (h : UpdateHeap) (a : Nat)
    (st : ClientBaseUpdateBuilderState) (hst : h[a]? = some st)
    (fieldPath : String) (value : JsValue) :
    ((ClientBaseUpdateBuilder.setOp h a fieldPath value).1)[
        (ClientBaseUpdateBuilder.setOp h a fieldPath value).2]? =
      some { st with updateData := objSet st.updateData fieldPath value } := by
  have heq : ClientBaseUpdateBuilder.setOp h a fieldPath value =
      (h ++ [{ st with updateData := objSet st.updateData fieldPath value }],
       h.length) := by
    unfold ClientBaseUpdateBuilder.setOp
    rw [hst]
  rw [heq]
  simpa using List.getElem?_concat_length h _

theorem ClientBaseQueryBuilder.addConstraintDefinition_frame (h : QueryHeap)
    (a : Nat) (d : QueryConstraintDefinition) (ha : a < h.length) :
    (ClientBaseQueryBuilder.addConstraintDefinition h a d).2 ≠ a ∧
    ((ClientBaseQueryBuilder.addConstraintDefinition h a d).1)[a]? = h[a]? := by
  have hsome : h[a]? = some h[a] := List.getElem?_eq_getElem ha
  have heq : ClientBaseQueryBuilder.addConstraintDefinition h a d =
      (h ++ [{ h[a] with
                constraintDefinitions := (h[a]).constraintDefinitions ++ [d] }],
       h.length) := by
    unfold ClientBaseQueryBuilder.addConstraintDefinition
    rw [hsome]
  rw [heq]
  refine ⟨by omega, ?_⟩
  simpa [hsome] using List.getElem?_append_left ha

theorem ClientBaseQueryBuilder.addConstraintDefinition_result (h : QueryHeap)
    (a : Nat) (st : ClientBaseQueryBuilderState) (hst : h[a]? = some st)
    (d : QueryConstraintDefinition) :
    ((ClientBaseQueryBuilder.addConstraintDefinition h a d).1)[
        (ClientBaseQueryBuilder.addConstraintDefinition h a d).2]? =
      some { st with
              constraintDefinitions := st.constraintDefinitions ++ [d] } := by
  have heq : ClientBaseQueryBuilder.addConstraintDefinition h a d =
      (h ++ [{ st with
                constraintDefinitions := st.constraintDefinitions ++ [d] }],
       h.length) := by
    unfold ClientBaseQueryBuilder.addConstraintDefinition
    rw [hst]
  rw [heq]
  simpa using List.getElem?_concat_length h _

/-! ## Claim theorems -/

/-- Claim C2: for every query-builder or update-builder in its heap and every
chain method (`_where`, `orderBy`, `limit`, `limitToLast`, `startAt`,
`startAfter`, `endAt`, `endBefore`; `_set`, `_increment`, `_arrayUnion`,
`_arrayRemove`, `_serverTimestamp`, `_deleteField`), the call returns a
builder distinct from the receiver, and the receiver's accumulated
constraint sequence or update mapping is unchanged by the call. -/
theorem chain_methods_return_fresh_builder_and_preserve_receiver
    (hq : QueryHeap) (a : Nat) (hu : UpdateHeap) (b : Nat)
    (ha : a < hq.length) (hb : b < hu.length)
    (fp : String) (op : ClientWhereFilterOp) (v : JsValue)
    (dir : ClientOrderByDirection) (n : Int) (snap : JsValue)
    (fvs : List JsValue) (vals : List JsValue) (delta : Int) :
    ((ClientBaseQueryBuilder.whereOp hq a fp op v).2 ≠ a ∧
      ((ClientBaseQueryBuilder.whereOp hq a fp op v).1)[a]? = hq[a]?) ∧
    ((ClientBaseQueryBuilder.orderBy hq a fp dir).2 ≠ a ∧
      ((ClientBaseQueryBuilder.orderBy hq a fp dir).1)[a]? = hq[a]?) ∧
    ((ClientBaseQueryBuilder.limit hq a n).2 ≠ a ∧
      ((ClientBaseQueryBuilder.limit hq a n).1)[a]? = hq[a]?) ∧
    ((ClientBaseQueryBuilder.limitToLast hq a n).2 ≠ a ∧
      ((ClientBaseQueryBuilder.limitToLast hq a n).1)[a]? = hq[a]?) ∧
    ((ClientBaseQueryBuilder.startAt hq a snap fvs).2 ≠ a ∧
      ((ClientBaseQueryBuilder.startAt hq a snap fvs).1)[a]? = hq[a]?) ∧
    ((ClientBaseQueryBuilder.startAfter hq a snap fvs).2 ≠ a ∧
      ((ClientBaseQueryBuilder.startAfter hq a snap fvs).1)[a]? = hq[a]?) ∧
    ((ClientBaseQueryBuilder.endAt hq a snap fvs).2 ≠ a ∧
      ((ClientBaseQueryBuilder.endAt hq a snap fvs).1)[a]? = hq[a]?) ∧
    ((ClientBaseQueryBuilder.endBefore hq a snap fvs).2 ≠ a ∧
      ((ClientBaseQueryBuilder.endBefore hq a snap fvs).1)[a]? = hq[a]?) ∧
    ((ClientBaseUpdateBuilder.setOp hu b fp v).2 ≠ b ∧
      ((ClientBaseUpdateBuilder.setOp hu b fp v).1)[b]? = hu[b]?) ∧
    ((ClientBaseUpdateBuilder.incrementOp hu b fp delta).2 ≠ b ∧
      ((ClientBaseUpdateBuilder.incrementOp hu b fp delta).1)[b]? = hu[b]?) ∧
    ((ClientBaseUpdateBuilder.arrayUnionOp hu b fp vals).2 ≠ b ∧
      ((ClientBaseUpdateBuilder.arrayUnionOp hu b fp vals).1)[b]? = hu[b]?) ∧
    ((ClientBaseUpdateBuilder.arrayRemoveOp hu b fp vals).2 ≠ b ∧
      ((ClientBaseUpdateBuilder.arrayRemoveOp hu b fp vals).1)[b]? = hu[b]?) ∧
    ((ClientBaseUpdateBuilder.serverTimestampOp hu b fp).2 ≠ b ∧
      ((ClientBaseUpdateBuilder.serverTimestampOp hu b fp).1)[b]? = hu[b]?) ∧
    ((ClientBaseUpdateBuilder.deleteFieldOp hu b fp).2 ≠ b ∧
      ((ClientBaseUpdateBuilder.deleteFieldOp hu b fp).1)[b]? = hu[b]?) := by
  refine ⟨?_, ?_, ?_, ?_, ?_, ?_, ?_, ?_, ?_, ?_, ?_, ?_, ?_, ?_⟩
  · exact ClientBaseQueryBuilder.addConstraintDefinition_frame hq a _ ha
  · exact ClientBaseQueryBuilder.addConstraintDefinition_frame hq a _ ha
  · exact ClientBaseQueryBuilder.addConstraintDefinition_frame hq a _ ha
  · exact ClientBaseQueryBuilder.addConstraintDefinition_frame hq a _ ha
  · exact ClientBaseQueryBuilder.addConstraintDefinition_frame hq a _ ha
  · exact ClientBaseQueryBuilder.addConstraintDefinition_frame hq a _ ha
  · exact ClientBaseQueryBuilder.addConstraintDefinition_frame hq a _ ha
  · exact ClientBaseQueryBuilder.addConstraintDefinition_frame hq a _ ha
  · exact ClientBaseUpdateBuilder.setOp_frame hu b _ _ hb
  · exact ClientBaseUpdateBuilder.setOp_frame hu b _ _ hb
  · exact ClientBaseUpdateBuilder.setOp_frame hu b _ _ hb
  · exact ClientBaseUpdateBuilder.setOp_frame hu b _ _ hb
  · exact ClientBaseUpdateBuilder.setOp_frame hu b _ _ hb
  · exact ClientBaseUpdateBuilder.setOp_frame hu b _ _ hb

/-- Witness for C2 at one concrete query builder and one concrete update
builder. -/
theorem chain_methods_immutability_witness :
    (0 : Nat) < ([⟨0, ["users"], []⟩] : QueryHeap).length ∧
    (0 : Nat) < ([⟨["users", "u1"], []⟩] : UpdateHeap).length ∧
    ((ClientBaseQueryBuilder.limit [⟨0, ["users"], []⟩] 0 5).2 ≠ 0 ∧
      ((ClientBaseQueryBuilder.limit [⟨0, ["users"], []⟩] 0 5).1)[0]? =
        ([⟨0, ["users"], []⟩] : QueryHeap)[0]?) ∧
    ((ClientBaseUpdateBuilder.setOp [⟨["users", "u1"], []⟩] 0 "x"
        (JsValue.num 1)).2 ≠ 0 ∧
      ((ClientBaseUpdateBuilder.setOp [⟨["users", "u1"], []⟩] 0 "x"
          (JsValue.num 1)).1)[0]? = ([⟨["users", "u1"], []⟩] : UpdateHeap)[0]?) := by
  have h := chain_methods_return_fresh_builder_and_preserve_receiver
    [⟨0, ["users"], []⟩] 0 [⟨["users", "u1"], []⟩] 0
    (by decide) (by decide) "x" ClientWhereFilterOp.eqOp (JsValue.num 1)
    ClientOrderByDirection.asc 5 JsValue.nullV [] [] 2
  exact ⟨by decide, by decide, h.2.2.1, h.2.2.2.2.2.2.2.2.1⟩

/-- Claim C5: `commit()` on an empty accumulated mapping issues no store call
(and resolves successfully); on a non-empty mapping it issues exactly one
`updateDoc` call carrying the full accumulated mapping. -/
theorem commit_empty_noop_nonempty_single_update
    (st : ClientBaseUpdateBuilderState) :
    (st.updateData = [] → ClientBaseUpdateBuilder.commit st = []) ∧
    (st.updateData ≠ [] →
      ClientBaseUpdateBuilder.commit st =
        [StoreCall.updateDocCall st.docRef st.updateData]) := by
  constructor
  · intro hemp
    simp [ClientBaseUpdateBuilder.commit, hemp]
  · intro hne
    have : st.updateData.length ≠ 0 := by
      simpa [List.length_eq_zero] using hne
    simp [ClientBaseUpdateBuilder.commit, this]

/-- Witness for C5: an empty commit issues no call; a one-field commit
issues exactly the one update call. -/
theorem commit_witness :
    ClientBaseUpdateBuilder.commit ⟨["users", "u1"], []⟩ = [] ∧
    ClientBaseUpdateBuilder.commit ⟨["users", "u1"], [("x", JsValue.num 2)]⟩ =
      [StoreCall.updateDocCall ["users", "u1"] [("x", JsValue.num 2)]] :=
  ⟨(commit_empty_noop_nonempty_single_update ⟨["users", "u1"], []⟩).1 rfl,
   (commit_empty_noop_nonempty_single_update
      ⟨["users", "u1"], [("x", JsValue.num 2)]⟩).2 (by simp)⟩

/-- A whole chain of constraint-adding calls, each one the
`addConstraintDefinition` step of the corresponding chain method, applied
in the order of the given list. -/
def appendConstraints (h : QueryHeap) (a : Nat)
    (cs : List QueryConstraintDefinition) : QueryHeap × Nat :=
  cs.foldl (fun p c => ClientBaseQueryBuilder.addConstraintDefinition p.1 p.2 c) (h, a)

theorem appendConstraints_result :
    ∀ (cs : List QueryConstraintDefinition) (h : QueryHeap) (a : Nat)
      (st : ClientBaseQueryBuilderState), h[a]? = some st →
      ∃ st', ((appendConstraints h a cs).1)[(appendConstraints h a cs).2]? = some st' ∧
        st'.constraintDefinitions = st.constraintDefinitions ++ cs ∧
        st'.collectionRef = st.collectionRef := by
  intro cs
  induction cs with
  | nil =>
    intro h a st hst
    exact ⟨st, hst, by simp, rfl⟩
  | cons c t ih =>
    intro h a st hst
    have hstep := ClientBaseQueryBuilder.addConstraintDefinition_result h a st hst c
    have hrec := ih (ClientBaseQueryBuilder.addConstraintDefinition h a c).1
      (ClientBaseQueryBuilder.addConstraintDefinition h a c).2 _ hstep
    obtain ⟨st', h1, h2, h3⟩ := hrec
    refine ⟨st', ?_, ?_, h3⟩
    · simpa [appendConstraints, List.foldl] using h1
    · simpa using h2

/-- Claim C3: constraints appended in the order `[c1, ..., cn]` to a fresh query
builder compile, via `buildQuery`, to the native constraint list whose
`i`-th element is the per-variant translation of `ci`: same length, same
order, nothing dropped, duplicated or reordered. -/
theorem buildQuery_preserves_constraint_order (h : QueryHeap) (a : Nat)
    (st : ClientBaseQueryBuilderState) (hst : h[a]? = some st)
    (hfresh : st.constraintDefinitions = [])
    (cs : List QueryConstraintDefinition) :
    ∃ st', ((appendConstraints h a cs).1)[(appendConstraints h a cs).2]? = some st' ∧
      st'.constraintDefinitions = cs ∧
      (ClientBaseQueryBuilder.buildQuery st').constraints.length = cs.length ∧
      ∀ i : Nat, ((ClientBaseQueryBuilder.buildQuery st').constraints)[i]? =
        cs[i]?.map ClientBaseQueryBuilder.translateConstraintDefinition := by
  obtain ⟨st', h1, h2, h3⟩ := appendConstraints_result cs h a st hst
  rw [hfresh, List.nil_append] at h2
  refine ⟨st', h1, h2, ?_, ?_⟩
  · simp [ClientBaseQueryBuilder.buildQuery, h2]
  · intro i
    simp [ClientBaseQueryBuilder.buildQuery, h2, List.getElem?_map]

/-- Witness for C3 at a three-constraint chain. -/
theorem buildQuery_order_witness :
    (([⟨0, ["users"], []⟩] : QueryHeap)[0]? = some ⟨0, ["users"], []⟩) ∧
    (∃ st', ((appendConstraints [⟨0, ["users"], []⟩] 0
        [QueryConstraintDefinition.whereDef "age" ClientWhereFilterOp.geOp (JsValue.num 18),
         QueryConstraintDefinition.orderByDef "age" ClientOrderByDirection.asc,
         QueryConstraintDefinition.limitDef 10]).1)[
        (appendConstraints [⟨0, ["users"], []⟩] 0
        [QueryConstraintDefinition.whereDef "age" ClientWhereFilterOp.geOp (JsValue.num 18),
         QueryConstraintDefinition.orderByDef "age" ClientOrderByDirection.asc,
         QueryConstraintDefinition.limitDef 10]).2]? = some st' ∧
      st'.constraintDefinitions =
        [QueryConstraintDefinition.whereDef "age" ClientWhereFilterOp.geOp (JsValue.num 18),
         QueryConstraintDefinition.orderByDef "age" ClientOrderByDirection.asc,
         QueryConstraintDefinition.limitDef 10] ∧
      (ClientBaseQueryBuilder.buildQuery st').constraints.length = 3 ∧
      ∀ i : Nat, ((ClientBaseQueryBuilder.buildQuery st').constraints)[i]? =
        ([QueryConstraintDefinition.whereDef "age" ClientWhereFilterOp.geOp (JsValue.num 18),
          QueryConstraintDefinition.orderByDef "age" ClientOrderByDirection.asc,
          QueryConstraintDefinition.limitDef 10][i]?).map
          ClientBaseQueryBuilder.translateConstraintDefinition) :=
  ⟨rfl, buildQuery_preserves_constraint_order [⟨0, ["users"], []⟩] 0
    ⟨0, ["users"], []⟩ rfl rfl
    [QueryConstraintDefinition.whereDef "age" ClientWhereFilterOp.geOp (JsValue.num 18),
     QueryConstraintDefinition.orderByDef "age" ClientOrderByDirection.asc,
     QueryConstraintDefinition.limitDef 10]⟩

theorem filter_key_eq_nil_of_not_mem (m : JsObj) (k : String)
    (h : k ∉ m.map Prod.fst) : m.filter (fun q => q.1 == k) = [] := by
  induction m with
  | nil => rfl
  | cons p t ih =>
    simp only [List.map_cons, List.mem_cons, not_or] at h
    have hp : (p.1 == k) = false :=
      beq_eq_false_iff_ne.mpr (fun he => h.1 he.symm)
    simp [List.filter, hp, ih h.2]

theorem objSet_filter_self_of_nodup (m : JsObj) (k : String) (v : JsValue)
    (hnd : (m.map Prod.fst).Nodup) :
    (objSet m k v).filter (fun q => q.1 == k) = [(k, v)] := by
  induction m with
  | nil => simp [objSet, List.filter]
  | cons p t ih =>
    simp only [List.map_cons, List.nodup_cons] at hnd
    by_cases hp : p.1 == k
    · have hpk : p.1 = k := by simpa using hp
      have : t.filter (fun q => q.1 == k) = [] :=
        filter_key_eq_nil_of_not_mem t k (hpk ▸ hnd.1)
      simp [objSet, hp, List.filter, this]
    · simp [objSet, hp, List.filter, ih hnd.2]

theorem objSet_keys_nodup (m : JsObj) (k : String) (v : JsValue)
    (hnd : (m.map Prod.fst).Nodup) :
    ((objSet m k v).map Prod.fst).Nodup := by
  induction m with
  | nil => simp [objSet]
  | cons p t ih =>
    simp only [List.map_cons, List.nodup_cons] at hnd
    by_cases hp : p.1 == k
    · have hpk : p.1 = k := by simpa using hp
      rw [show objSet (p :: t) k v = (k, v) :: t from by simp [objSet, hp]]
      simp only [List.map_cons, List.nodup_cons]
      exact ⟨hpk ▸ hnd.1, hnd.2⟩
    · have hpk : p.1 ≠ k := by simpa using hp
      have hpf : (p.1 == k) = false := by simpa using hp
      rw [show objSet (p :: t) k v = p :: objSet t k v from by simp [objSet, hpf]]
      simp only [List.map_cons, List.nodup_cons]
      refine ⟨?_, ih hnd.2⟩
      rcases objSet_keys t k v with he | he
      · rw [he]; exact hnd.1
      · rw [he]
        simp only [List.mem_append, List.mem_singleton, not_or]
        exact ⟨hnd.1, hpk⟩

/-- Claim C4: on an update builder whose accumulated mapping already holds an
operation at path `p`, installing a new operation at `p` replaces the
earlier one, leaving exactly one entry for `p` with the later value; in
particular two chained `_set` calls at the same path leave exactly one
operation carrying the second value. -/
theorem update_builder_last_write_wins
    (st : ClientBaseUpdateBuilderState)
    (hnd : (st.updateData.map Prod.fst).Nodup)
    (p : String) (v w : JsValue)
    (h : UpdateHeap) (a : Nat) (hst : h[a]? = some st) (v1 v2 : JsValue) :
    (objGet st.updateData p = some w →
      (objSet st.updateData p v).filter (fun q => q.1 == p) = [(p, v)] ∧
      objGet (objSet st.updateData p v) p = some v) ∧
    (∃ st2,
      ((ClientBaseUpdateBuilder.setOp
          (ClientBaseUpdateBuilder.setOp h a p v1).1
          (ClientBaseUpdateBuilder.setOp h a p v1).2 p v2).1)[
        (ClientBaseUpdateBuilder.setOp
          (ClientBaseUpdateBuilder.setOp h a p v1).1
          (ClientBaseUpdateBuilder.setOp h a p v1).2 p v2).2]? = some st2 ∧
      st2.updateData.filter (fun q => q.1 == p) = [(p, v2)] ∧
      objGet st2.updateData p = some v2) := by
  constructor
  · intro _
    exact ⟨objSet_filter_self_of_nodup st.updateData p v hnd,
           objGet_objSet_self st.updateData p v⟩
  · have h1 := ClientBaseUpdateBuilder.setOp_result h a st hst p v1
    have h2 := ClientBaseUpdateBuilder.setOp_result _ _ _ h1 p v2
    refine ⟨_, h2, ?_, objGet_objSet_self _ p v2⟩
    exact objSet_filter_self_of_nodup _ p v2 (objSet_keys_nodup _ p v1 hnd)

/-- Witness for C4: `setField('x', 1)` then `setField('x', 2)` on a
one-builder heap leaves exactly one operation for `x`, with value `2`. -/
theorem last_write_wins_witness :
    ((objSet [("x", JsValue.num 0)] "x" (JsValue.num 9)).filter
        (fun q => q.1 == "x") = [("x", JsValue.num 9)] ∧
      objGet (objSet [("x", JsValue.num 0)] "x" (JsValue.num 9)) "x" =
        some (JsValue.num 9)) ∧
    (∃ st2,
      ((ClientBaseUpdateBuilder.setOp
          (ClientBaseUpdateBuilder.setOp
            [⟨["users", "u1"], [("x", JsValue.num 0)]⟩] 0 "x" (JsValue.num 1)).1
          (ClientBaseUpdateBuilder.setOp
            [⟨["users", "u1"], [("x", JsValue.num 0)]⟩] 0 "x" (JsValue.num 1)).2
          "x" (JsValue.num 2)).1)[
        (ClientBaseUpdateBuilder.setOp
          (ClientBaseUpdateBuilder.setOp
            [⟨["users", "u1"], [("x", JsValue.num 0)]⟩] 0 "x" (JsValue.num 1)).1
          (ClientBaseUpdateBuilder.setOp
            [⟨["users", "u1"], [("x", JsValue.num 0)]⟩] 0 "x" (JsValue.num 1)).2
          "x" (JsValue.num 2)).2]? = some st2 ∧
      st2.updateData.filter (fun q => q.1 == "x") = [("x", JsValue.num 2)] ∧
      objGet st2.updateData "x" = some (JsValue.num 2)) := by
  have h := update_builder_last_write_wins
    ⟨["users", "u1"], [("x", JsValue.num 0)]⟩ (by simp)
    "x" (JsValue.num 9) (JsValue.num 0)
    [⟨["users", "u1"], [("x", JsValue.num 0)]⟩] 0 rfl
    (JsValue.num 1) (JsValue.num 2)
  exact ⟨h.1 rfl, h.2⟩

/-- Claim C1: `set` issues exactly one store `setDoc` call; the payload carries
schema defaults exactly when the write is not a merge write, and the
code's merge test holds exactly when the caller passed options with
`merge: true` or with a `mergeFields` list (so with options absent, or
with `merge` explicitly `false` and no `mergeFields`, defaults are
injected, and on any merge write the payload is passed through
unchanged). -/
theorem set_applies_defaults_iff_not_merge
    (self : ClientBaseCollectionRefState) (id : String) (data : JsObj)
    (options : Option SetOptionsModel) :
    ClientBaseCollectionRef.set self id data options =
      [StoreCall.setDocCall (ClientBaseCollectionRef.doc self id)
        (if ClientBaseCollectionRef.mergeRequested options then data
         else ClientBaseCollectionRef.applyDefaults self data)
        (options.getD SetOptionsModel.empty)] ∧
    (ClientBaseCollectionRef.mergeRequested options = true ↔
      ∃ o, options = some o ∧
        (o.merge = some true ∨ o.mergeFields ≠ none)) := by
  constructor
  · unfold ClientBaseCollectionRef.set
    cases hm : ClientBaseCollectionRef.mergeRequested options <;> simp [hm]
  · cases options with
    | none => simp [ClientBaseCollectionRef.mergeRequested]
    | some o =>
        simp [ClientBaseCollectionRef.mergeRequested,
          Option.isSome_iff_ne_none]

/-- The merge-skip example of the specification, checked by evaluation:
with schema default `createdAt: serverTimestamp`, a full `set` injects the
sentinel and a `merge: true` set passes the payload unchanged. -/
theorem set_merge_skip_example :
    ClientBaseCollectionRef.set
      (mkClientBaseCollectionRef 0 "users"
        (some (CollectionSchema.mk
          [("createdAt", ⟨some (JsValue.str "serverTimestamp")⟩)] none)) none)
      "u1" [("name", JsValue.str "a")] none =
      [StoreCall.setDocCall ["users", "u1"]
        [("name", JsValue.str "a"), ("createdAt", JsValue.serverTimestampSentinel)]
        ⟨none, none⟩] ∧
    ClientBaseCollectionRef.set
      (mkClientBaseCollectionRef 0 "users"
        (some (CollectionSchema.mk
          [("createdAt", ⟨some (JsValue.str "serverTimestamp")⟩)] none)) none)
      "u1" [("name", JsValue.str "a")] (some ⟨some true, none⟩) =
      [StoreCall.setDocCall ["users", "u1"] [("name", JsValue.str "a")]
        ⟨some true, none⟩] := by
  constructor <;> rfl

/-- Claim C7: `get(id)` issues one store read and returns the snapshot's data
payload when the store reports existence, and the explicit absence marker
(`none`, i.e. JS `undefined`) — never an error — when it does not. -/
theorem get_returns_payload_or_absence
    (store : RefPath → DocumentSnapshotModel)
    (self : ClientBaseCollectionRefState) (id : String) :
    ((store (ClientBaseCollectionRef.doc self id)).snapshotExists = true →
      (ClientBaseCollectionRef.get store self id).1 =
        Except.ok (store (ClientBaseCollectionRef.doc self id)).snapData) ∧
    ((store (ClientBaseCollectionRef.doc self id)).snapshotExists = false →
      (ClientBaseCollectionRef.get store self id).1 = Except.ok none) ∧
    (∃ r, (ClientBaseCollectionRef.get store self id).1 = Except.ok r) ∧
    (ClientBaseCollectionRef.get store self id).2 =
      [StoreCall.getDocCall (ClientBaseCollectionRef.doc self id)] := by
  refine ⟨?_, ?_, ?_, rfl⟩
  · intro hex
    simp [ClientBaseCollectionRef.get, hex]
  · intro hex
    simp [ClientBaseCollectionRef.get, hex]
  · exact ⟨_, rfl⟩

/-- Witness for C7: a store reporting non-existence yields the absence
marker; a store reporting existence yields the payload. -/
theorem get_witness :
    (ClientBaseCollectionRef.get (fun _ => ⟨false, none⟩)
      (mkClientBaseCollectionRef 0 "users" none none) "missing-id").1 =
      Except.ok none ∧
    (ClientBaseCollectionRef.get
      (fun _ => ⟨true, some [("name", JsValue.str "a")]⟩)
      (mkClientBaseCollectionRef 0 "users" none none) "u1").1 =
      Except.ok (some [("name", JsValue.str "a")]) :=
  ⟨(get_returns_payload_or_absence (fun _ => ⟨false, none⟩)
      (mkClientBaseCollectionRef 0 "users" none none) "missing-id").2.1 rfl,
   (get_returns_payload_or_absence
      (fun _ => ⟨true, some [("name", JsValue.str "a")]⟩)
      (mkClientBaseCollectionRef 0 "users" none none) "u1").1 rfl⟩

/-! ## Lemmas about the applyDefaults loop -/

theorem applyDefaultsStep_of_present (acc : JsObj × List String)
    (e : String × FieldSchema) (hp : objGet acc.1 e.1 ≠ none) :
    ClientBaseCollectionRef.applyDefaultsStep acc e = acc := by
  have hn : (objGet acc.1 e.1).isNone = false := by
    cases hx : objGet acc.1 e.1 with
    | none => exact absurd hx hp
    | some w => rfl
  unfold ClientBaseCollectionRef.applyDefaultsStep
  cases hd : e.2.defaultValue with
  | none => simp [hn, hd]
  | some dv => simp [hn, hd]

theorem applyDefaultsStep_fills (acc : JsObj × List String)
    (e : String × FieldSchema) (hd : e.2.defaultValue ≠ none) :
    objGet (ClientBaseCollectionRef.applyDefaultsStep acc e).1 e.1 ≠ none := by
  by_cases hp : objGet acc.1 e.1 = none
  · obtain ⟨dv, hdv⟩ := Option.ne_none_iff_exists'.mp hd
    unfold ClientBaseCollectionRef.applyDefaultsStep
    rw [hdv]
    by_cases hst : ClientBaseCollectionRef.isServerTimestampDirective (some dv)
    · simp [hst, hp, objGet_objSet_self]
    · simp [hst, hp, objGet_objSet_self]
  · rw [applyDefaultsStep_of_present acc e hp]
    exact hp

theorem applyDefaultsStep_preserves (acc : JsObj × List String)
    (e : String × FieldSchema) (k : String) (v : JsValue)
    (hk : objGet acc.1 k = some v) :
    objGet (ClientBaseCollectionRef.applyDefaultsStep acc e).1 k = some v ∧
    ((ClientBaseCollectionRef.applyDefaultsStep acc e).2 = acc.2 ∨
      ((ClientBaseCollectionRef.applyDefaultsStep acc e).2 = acc.2 ++ [e.1] ∧
        e.1 ≠ k)) := by
  by_cases hp : objGet acc.1 e.1 = none
  · have hek : e.1 ≠ k := by
      intro he
      rw [he, hk] at hp
      exact Option.noConfusion hp
    unfold ClientBaseCollectionRef.applyDefaultsStep
    cases hd : e.2.defaultValue with
    | none =>
        simp [ClientBaseCollectionRef.isServerTimestampDirective, hk]
    | some dv =>
        by_cases hst : ClientBaseCollectionRef.isServerTimestampDirective (some dv)
        · simp [hst, hp, objGet_objSet_other acc.1 e.1 k _ (Ne.symm hek), hk, hek]
        · simp [hst, hp, objGet_objSet_other acc.1 e.1 k dv (Ne.symm hek), hk]
  · rw [applyDefaultsStep_of_present acc e hp]
    exact ⟨hk, Or.inl rfl⟩

theorem applyDefaults_foldl_preserves (fields : List (String × FieldSchema)) :
    ∀ (acc : JsObj × List String) (k : String) (v : JsValue),
      objGet acc.1 k = some v →
      objGet (fields.foldl ClientBaseCollectionRef.applyDefaultsStep acc).1 k
        = some v ∧
      (k ∉ acc.2 →
        k ∉ (fields.foldl ClientBaseCollectionRef.applyDefaultsStep acc).2) := by
  induction fields with
  | nil => exact fun acc k v hk => ⟨hk, fun h => h⟩
  | cons e t ih =>
    intro acc k v hk
    simp only [List.foldl]
    obtain ⟨h1, h2⟩ := applyDefaultsStep_preserves acc e k v hk
    obtain ⟨ih1, ih2⟩ :=
      ih (ClientBaseCollectionRef.applyDefaultsStep acc e) k v h1
    refine ⟨ih1, fun hkn => ih2 ?_⟩
    rcases h2 with he | ⟨he, hne⟩
    · rw [he]; exact hkn
    · rw [he]
      simp only [List.mem_append, List.mem_singleton, not_or]
      exact ⟨hkn, fun hkeq => hne hkeq.symm⟩

theorem applyDefaults_foldl_fills (fields : List (String × FieldSchema)) :
    ∀ (acc : JsObj × List String) (e : String × FieldSchema), e ∈ fields →
      e.2.defaultValue ≠ none →
      objGet (fields.foldl ClientBaseCollectionRef.applyDefaultsStep acc).1 e.1
        ≠ none := by
  induction fields with
  | nil => intro acc e he; exact absurd he (List.not_mem_nil e)
  | cons f t ih =>
    intro acc e he hd
    simp only [List.foldl]
    rcases List.mem_cons.mp he with rfl | hmem
    · have hfill := applyDefaultsStep_fills acc e hd
      obtain ⟨v, hv⟩ := Option.ne_none_iff_exists'.mp hfill
      have hpres :=
        (applyDefaults_foldl_preserves t
          (ClientBaseCollectionRef.applyDefaultsStep acc e) e.1 v hv).1
      rw [hpres]
      exact Option.noConfusion
    · exact ih (ClientBaseCollectionRef.applyDefaultsStep acc f) e hmem hd

theorem applyDefaultsStep_noop (acc : JsObj × List String)
    (e : String × FieldSchema)
    (hp : e.2.defaultValue ≠ none → objGet acc.1 e.1 ≠ none) :
    ClientBaseCollectionRef.applyDefaultsStep acc e = acc := by
  cases hd : e.2.defaultValue with
  | none =>
      unfold ClientBaseCollectionRef.applyDefaultsStep
      simp [hd, ClientBaseCollectionRef.isServerTimestampDirective]
  | some dv => exact applyDefaultsStep_of_present acc e (hp (by simp [hd]))

theorem applyDefaults_foldl_noop (fields : List (String × FieldSchema)) :
    ∀ (acc : JsObj × List String),
      (∀ e ∈ fields, e.2.defaultValue ≠ none → objGet acc.1 e.1 ≠ none) →
      fields.foldl ClientBaseCollectionRef.applyDefaultsStep acc = acc := by
  induction fields with
  | nil => intro acc _; rfl
  | cons f t ih =>
    intro acc hall
    simp only [List.foldl]
    rw [applyDefaultsStep_noop acc f (hall f (List.mem_cons_self f t))]
    exact ih acc (fun e he hd => hall e (List.mem_cons_of_mem f he) hd)

/-- Claim C6: `applyDefaults` never overwrites a field present in the payload
(and never invokes the server-timestamp sentinel factory for it), and it
is idempotent: applied to its own output it returns that output
unchanged. -/
theorem applyDefaults_idempotent_and_never_overwrites
    (self : ClientBaseCollectionRefState) (data : JsObj) (k : String)
    (v : JsValue) :
    (objGet data k = some v →
      objGet (ClientBaseCollectionRef.applyDefaults self data) k = some v ∧
      k ∉ ClientBaseCollectionRef.applyDefaultsTimestampCalls self data) ∧
    ClientBaseCollectionRef.applyDefaults self
        (ClientBaseCollectionRef.applyDefaults self data) =
      ClientBaseCollectionRef.applyDefaults self data := by
  cases hs : self.schema with
  | none =>
      refine ⟨fun hk => ⟨?_, ?_⟩, ?_⟩ <;>
        simp [ClientBaseCollectionRef.applyDefaults,
          ClientBaseCollectionRef.applyDefaultsTimestampCalls,
          ClientBaseCollectionRef.applyDefaultsRun, hs] <;>
        first
          | exact hk
          | exact List.not_mem_nil k
  | some s =>
      constructor
      · intro hk
        have h := applyDefaults_foldl_preserves s.fields (data, []) k v hk
        constructor
        · simpa [ClientBaseCollectionRef.applyDefaults,
            ClientBaseCollectionRef.applyDefaultsRun, hs] using h.1
        · simpa [ClientBaseCollectionRef.applyDefaultsTimestampCalls,
            ClientBaseCollectionRef.applyDefaultsRun, hs]
            using h.2 (List.not_mem_nil k)
      · have hfill : ∀ e ∈ s.fields, e.2.defaultValue ≠ none →
            objGet ((s.fields.foldl ClientBaseCollectionRef.applyDefaultsStep
              (data, [])).1, ([] : List String)).1 e.1 ≠ none := by
          intro e he hd
          exact applyDefaults_foldl_fills s.fields (data, []) e he hd
        have hnoop := applyDefaults_foldl_noop s.fields
          ((s.fields.foldl ClientBaseCollectionRef.applyDefaultsStep
            (data, [])).1, ([] : List String)) hfill
        simp only [ClientBaseCollectionRef.applyDefaults,
          ClientBaseCollectionRef.applyDefaultsRun, hs]
        rw [hnoop]

/-- Witness for C6: a payload carrying an explicit `createdAt` keeps it,
the sentinel factory is not invoked for it, and a second application of
`applyDefaults` is a no-op. -/
theorem applyDefaults_witness :
    objGet [("name", JsValue.str "a"), ("createdAt", JsValue.str "2020")]
        "createdAt" = some (JsValue.str "2020") ∧
    (objGet (ClientBaseCollectionRef.applyDefaults
        (mkClientBaseCollectionRef 0 "users"
          (some (CollectionSchema.mk
            [("createdAt", ⟨some (JsValue.str "serverTimestamp")⟩),
             ("score", ⟨some (JsValue.num 7)⟩)] none)) none)
        [("name", JsValue.str "a"), ("createdAt", JsValue.str "2020")])
        "createdAt" = some (JsValue.str "2020") ∧
      "createdAt" ∉ ClientBaseCollectionRef.applyDefaultsTimestampCalls
        (mkClientBaseCollectionRef 0 "users"
          (some (CollectionSchema.mk
            [("createdAt", ⟨some (JsValue.str "serverTimestamp")⟩),
             ("score", ⟨some (JsValue.num 7)⟩)] none)) none)
        [("name", JsValue.str "a"), ("createdAt", JsValue.str "2020")]) ∧
    ClientBaseCollectionRef.applyDefaults
        (mkClientBaseCollectionRef 0 "users"
          (some (CollectionSchema.mk
            [("createdAt", ⟨some (JsValue.str "serverTimestamp")⟩),
             ("score", ⟨some (JsValue.num 7)⟩)] none)) none)
        (ClientBaseCollectionRef.applyDefaults
          (mkClientBaseCollectionRef 0 "users"
            (some (CollectionSchema.mk
              [("createdAt", ⟨some (JsValue.str "serverTimestamp")⟩),
               ("score", ⟨some (JsValue.num 7)⟩)] none)) none)
          [("name", JsValue.str "a"), ("createdAt", JsValue.str "2020")]) =
      ClientBaseCollectionRef.applyDefaults
        (mkClientBaseCollectionRef 0 "users"
          (some (CollectionSchema.mk
            [("createdAt", ⟨some (JsValue.str "serverTimestamp")⟩),
             ("score", ⟨some (JsValue.num 7)⟩)] none)) none)
        [("name", JsValue.str "a"), ("createdAt", JsValue.str "2020")] := by
  have h := applyDefaults_idempotent_and_never_overwrites
    (mkClientBaseCollectionRef 0 "users"
      (some (CollectionSchema.mk
        [("createdAt", ⟨some (JsValue.str "serverTimestamp")⟩),
         ("score", ⟨some (JsValue.num 7)⟩)] none)) none)
    [("name", JsValue.str "a"), ("createdAt", JsValue.str "2020")]
    "createdAt" (JsValue.str "2020")
  exact ⟨rfl, h.1 rfl, h.2⟩

theorem applyDefaults_foldl_injects (fields : List (String × FieldSchema)) :
    ∀ (acc : JsObj × List String) (f : String),
      (f, (⟨some (JsValue.str "serverTimestamp")⟩ : FieldSchema)) ∈ fields →
      (fields.map Prod.fst).Nodup → objGet acc.1 f = none →
      objGet (fields.foldl ClientBaseCollectionRef.applyDefaultsStep acc).1 f =
        some JsValue.serverTimestampSentinel := by
  induction fields with
  | nil => intro acc f hm; exact absurd hm (List.not_mem_nil _)
  | cons e t ih =>
    intro acc f hm hnd habs
    simp only [List.map_cons, List.nodup_cons] at hnd
    simp only [List.foldl]
    rcases List.mem_cons.mp hm with heq | hmem
    · have hstep : ClientBaseCollectionRef.applyDefaultsStep acc e =
          (objSet acc.1 f FirebaseFirestore.serverTimestamp, acc.2 ++ [f]) := by
        rw [← heq]
        unfold ClientBaseCollectionRef.applyDefaultsStep
        simp [ClientBaseCollectionRef.isServerTimestampDirective, habs]
      rw [hstep]
      have hv : objGet (objSet acc.1 f FirebaseFirestore.serverTimestamp) f =
          some JsValue.serverTimestampSentinel :=
        objGet_objSet_self acc.1 f FirebaseFirestore.serverTimestamp
      exact (applyDefaults_foldl_preserves t _ f _ hv).1
    · have hf_t : f ∈ t.map Prod.fst :=
        List.mem_map.mpr ⟨_, hmem, rfl⟩
      have hne : e.1 ≠ f := fun he => hnd.1 (he ▸ hf_t)
      have habs' :
          objGet (ClientBaseCollectionRef.applyDefaultsStep acc e).1 f = none := by
        by_cases hp : objGet acc.1 e.1 = none
        · unfold ClientBaseCollectionRef.applyDefaultsStep
          cases hd : e.2.defaultValue with
          | none =>
              simp [ClientBaseCollectionRef.isServerTimestampDirective, habs]
          | some dv =>
              by_cases hst :
                ClientBaseCollectionRef.isServerTimestampDirective (some dv)
              · simp [hst, hp,
                  objGet_objSet_other acc.1 e.1 f _ (Ne.symm hne), habs]
              · simp [hst, hp,
                  objGet_objSet_other acc.1 e.1 f dv (Ne.symm hne), habs]
        · rw [applyDefaultsStep_of_present acc e hp]; exact habs
      exact ih _ f hmem hnd.2 habs'

/-- Claim C10: a schema field whose default directive is exactly the string
`serverTimestamp` gets, when omitted from the payload, the store's
server-timestamp sentinel injected — never the literal string
`serverTimestamp` — so no schema can express a literal default equal to
that string. -/
theorem serverTimestamp_directive_injects_sentinel_not_literal
    (self : ClientBaseCollectionRefState) (s : CollectionSchema)
    (hs : self.schema = some s) (hnd : (s.fields.map Prod.fst).Nodup)
    (f : String)
    (hf : (f, (⟨some (JsValue.str "serverTimestamp")⟩ : FieldSchema)) ∈ s.fields)
    (data : JsObj) (habs : objGet data f = none) :
    objGet (ClientBaseCollectionRef.applyDefaults self data) f =
      some JsValue.serverTimestampSentinel ∧
    objGet (ClientBaseCollectionRef.applyDefaults self data) f ≠
      some (JsValue.str "serverTimestamp") := by
  have h := applyDefaults_foldl_injects s.fields (data, []) f hf hnd habs
  have h' : objGet (ClientBaseCollectionRef.applyDefaults self data) f =
      some JsValue.serverTimestampSentinel := by
    simpa [ClientBaseCollectionRef.applyDefaults,
      ClientBaseCollectionRef.applyDefaultsRun, hs] using h
  refine ⟨h', ?_⟩
  rw [h']
  simp

/-- Witness for C10 on a concrete schema and payload. -/
theorem serverTimestamp_directive_witness :
    objGet (ClientBaseCollectionRef.applyDefaults
      (mkClientBaseCollectionRef 0 "users"
        (some (CollectionSchema.mk
          [("createdAt", ⟨some (JsValue.str "serverTimestamp")⟩)] none)) none)
      [("name", JsValue.str "a")]) "createdAt" =
      some JsValue.serverTimestampSentinel ∧
    objGet (ClientBaseCollectionRef.applyDefaults
      (mkClientBaseCollectionRef 0 "users"
        (some (CollectionSchema.mk
          [("createdAt", ⟨some (JsValue.str "serverTimestamp")⟩)] none)) none)
      [("name", JsValue.str "a")]) "createdAt" ≠
      some (JsValue.str "serverTimestamp") :=
  serverTimestamp_directive_injects_sentinel_not_literal
    (mkClientBaseCollectionRef 0 "users"
      (some (CollectionSchema.mk
        [("createdAt", ⟨some (JsValue.str "serverTimestamp")⟩)] none)) none)
    (CollectionSchema.mk
      [("createdAt", ⟨some (JsValue.str "serverTimestamp")⟩)] none)
    rfl (by decide) "createdAt" (List.mem_cons_self _ _)
    [("name", JsValue.str "a")] rfl

theorem subCollection_trace_empty (self : ClientBaseCollectionRefState)
    (parentId subCollectionId : String) (subSchema : Option CollectionSchema) :
    (ClientBaseCollectionRef.subCollection self parentId subCollectionId
      subSchema).2 = [] := by
  unfold ClientBaseCollectionRef.subCollection
  repeat' split
  all_goals rfl

theorem mkClientBaseCollectionRef_ref_id (fs : Nat) (cid : String)
    (sch : Option CollectionSchema) (pr : Option RefPath) :
    refSegmentId (mkClientBaseCollectionRef fs cid sch pr).ref = cid := by
  cases pr with
  | none => rfl
  | some p => simp [mkClientBaseCollectionRef, refSegmentId]

/-- Claim C8: `subCollection` fails synchronously (its store-call trace is
empty) with a configuration error whenever the schema is absent, the name
is not declared, or the declared entry lacks its class; the
undeclared-name message names both the missing key and the owning
collection's id (the last segment of the collection reference, which the
constructor makes the collection id); on success it returns a fresh
resolver instantiated on the parent document reference. -/
theorem subCollection_config_errors
    (self : ClientBaseCollectionRefState) (parentId subCollectionId : String)
    (subSchema : Option CollectionSchema) :
    (ClientBaseCollectionRef.subCollection self parentId subCollectionId
      subSchema).2 = [] ∧
    (self.schema = none →
      (ClientBaseCollectionRef.subCollection self parentId subCollectionId
        subSchema).1 =
        Except.error (subCollectionNotFoundMsg subCollectionId
          (refSegmentId self.ref))) ∧
    (∀ s, self.schema = some s → s.subCollections = none →
      (ClientBaseCollectionRef.subCollection self parentId subCollectionId
        subSchema).1 =
        Except.error (subCollectionNotFoundMsg subCollectionId
          (refSegmentId self.ref))) ∧
    (∀ s subs, self.schema = some s → s.subCollections = some subs →
      recordGet subs subCollectionId = none →
      (ClientBaseCollectionRef.subCollection self parentId subCollectionId
        subSchema).1 =
        Except.error (subCollectionNotFoundMsg subCollectionId
          (refSegmentId self.ref))) ∧
    (∀ s subs entry, self.schema = some s → s.subCollections = some subs →
      recordGet subs subCollectionId = some entry → entry.2 = none →
      (ClientBaseCollectionRef.subCollection self parentId subCollectionId
        subSchema).1 =
        Except.error (collectionClassMissingMsg subCollectionId
          (refSegmentId self.ref))) ∧
    (∀ s subs entry cls, self.schema = some s → s.subCollections = some subs →
      recordGet subs subCollectionId = some entry → entry.2 = some cls →
      (ClientBaseCollectionRef.subCollection self parentId subCollectionId
        subSchema).1 =
        Except.ok ⟨cls, mkClientBaseCollectionRef self.firestore subCollectionId
          entry.1 (some (ClientBaseCollectionRef.doc self parentId))⟩) ∧
    (∃ s1 s2 s3 : String,
      subCollectionNotFoundMsg subCollectionId (refSegmentId self.ref) =
        s1 ++ subCollectionId ++ (s2 ++ refSegmentId self.ref ++ s3)) ∧
    (∀ fs cid sch pr,
      refSegmentId (mkClientBaseCollectionRef fs cid sch pr).ref = cid) := by
  refine ⟨subCollection_trace_empty self parentId subCollectionId subSchema,
    ?_, ?_, ?_, ?_, ?_, ?_, mkClientBaseCollectionRef_ref_id⟩
  · intro hs
    simp [ClientBaseCollectionRef.subCollection, hs]
  · intro s hs hsub
    simp [ClientBaseCollectionRef.subCollection, hs, hsub]
  · intro s subs hs hsub hrec
    simp [ClientBaseCollectionRef.subCollection, hs, hsub, hrec]
  · intro s subs entry hs hsub hrec hcls
    simp [ClientBaseCollectionRef.subCollection, hs, hsub, hrec, hcls]
  · intro s subs entry cls hs hsub hrec hcls
    simp [ClientBaseCollectionRef.subCollection, hs, hsub, hrec, hcls]
  · exact ⟨"Sub-collection " ++ squote,
      squote ++ " not found in schema for collection " ++ squote, squote,
      by simp [subCollectionNotFoundMsg, String.append_assoc]⟩

/-- Witness for C8: against a schema declaring only `posts`, an unknown
name fails with the configuration error naming the key and the owning
collection id, and the declared name succeeds with the resolver bound to
the parent document. -/
theorem subCollection_witness :
    (ClientBaseCollectionRef.subCollection
      (mkClientBaseCollectionRef 0 "users"
        (some (CollectionSchema.mk []
          (some [("posts", (none, some 7))]))) none)
      "u1" "unknown" none).1 =
      Except.error (subCollectionNotFoundMsg "unknown" "users") ∧
    (ClientBaseCollectionRef.subCollection
      (mkClientBaseCollectionRef 0 "users"
        (some (CollectionSchema.mk []
          (some [("posts", (none, some 7))]))) none)
      "u1" "posts" none).1 =
      Except.ok ⟨7, mkClientBaseCollectionRef 0 "posts" none
        (some ["users", "u1"])⟩ := by
  have h1 := subCollection_config_errors
    (mkClientBaseCollectionRef 0 "users"
      (some (CollectionSchema.mk [] (some [("posts", (none, some 7))]))) none)
    "u1" "unknown" none
  have h2 := subCollection_config_errors
    (mkClientBaseCollectionRef 0 "users"
      (some (CollectionSchema.mk [] (some [("posts", (none, some 7))]))) none)
    "u1" "posts" none
  constructor
  · exact h1.2.2.2.1 _ _ rfl rfl rfl
  · exact h2.2.2.2.2.2.1 _ _ _ 7 rfl rfl rfl rfl

/-- Claim C9: the `subSchema` argument of `subCollection` is never used — calls
differing only in it return identical results — and on success the
resolver is constructed with the nested schema stored in the parent
schema's declared sub-collection entry. -/
theorem subCollection_ignores_subSchema
    (self : ClientBaseCollectionRefState) (parentId subCollectionId : String)
    (sub1 sub2 : Option CollectionSchema) :
    ClientBaseCollectionRef.subCollection self parentId subCollectionId sub1 =
      ClientBaseCollectionRef.subCollection self parentId subCollectionId sub2 ∧
    (∀ s subs entry cls, self.schema = some s → s.subCollections = some subs →
      recordGet subs subCollectionId = some entry → entry.2 = some cls →
      (ClientBaseCollectionRef.subCollection self parentId subCollectionId
        sub1).1 =
        Except.ok ⟨cls, mkClientBaseCollectionRef self.firestore subCollectionId
          entry.1 (some (ClientBaseCollectionRef.doc self parentId))⟩) := by
  refine ⟨rfl, ?_⟩
  intro s subs entry cls hs hsub hrec hcls
  simp [ClientBaseCollectionRef.subCollection, hs, hsub, hrec, hcls]

/-- Witness for C9: two calls differing only in the `subSchema` argument
coincide, and the success case uses the schema declared in the entry. -/
theorem subCollection_ignores_subSchema_witness :
    ClientBaseCollectionRef.subCollection
      (mkClientBaseCollectionRef 0 "users"
        (some (CollectionSchema.mk []
          (some [("posts", (some (CollectionSchema.mk [] none), some 7))])))
        none)
      "u1" "posts" none =
      ClientBaseCollectionRef.subCollection
        (mkClientBaseCollectionRef 0 "users"
          (some (CollectionSchema.mk []
            (some [("posts", (some (CollectionSchema.mk [] none), some 7))])))
          none)
        "u1" "posts" (some (CollectionSchema.mk [("x", ⟨none⟩)] none)) ∧
    (ClientBaseCollectionRef.subCollection
      (mkClientBaseCollectionRef 0 "users"
        (some (CollectionSchema.mk []
          (some [("posts", (some (CollectionSchema.mk [] none), some 7))])))
        none)
      "u1" "posts" none).1 =
      Except.ok ⟨7, mkClientBaseCollectionRef 0 "posts"
        (some (CollectionSchema.mk [] none)) (some ["users", "u1"])⟩ := by
  have h := subCollection_ignores_subSchema
    (mkClientBaseCollectionRef 0 "users"
      (some (CollectionSchema.mk []
        (some [("posts", (some (CollectionSchema.mk [] none), some 7))])))
      none)
    "u1" "posts" none (some (CollectionSchema.mk [("x", ⟨none⟩)] none))
  exact ⟨h.1, h.2 _ _ _ 7 rfl rfl rfl rfl⟩
